import Mathlib

/-!
Shallow embedding of the data-loading pipeline of `src/app.py` (a Streamlit
dashboard pulling tabular data from Google Sheets).

Modelling conventions:
* A raw cell value, as returned by `worksheet.get_all_records()`, is either a
  number (`Value.num`, gspread auto-types numeric cells) or a string
  (`Value.str`).  After type coercion a cell may also be a datetime
  (`Value.date`), stored — as pandas stores `datetime64[ns]` — as an integer
  count of nanoseconds since the Unix epoch.
* A pandas DataFrame built from records is modelled column-major: an ordered
  list of (column name, column values).  The `object` dtype of a raw column
  corresponds to the column containing at least one string.
* `pd.to_numeric(…, errors='ignore')` / `pd.to_datetime(…, errors='ignore')`
  convert a whole column or, on the first failure, leave it entirely
  unchanged; this all-or-nothing behaviour is modelled with an option-valued
  traversal.  The numeral grammar accepted by `pd.to_numeric` is modelled on
  its integer fragment (optional sign and decimal digits), and the date
  grammar accepted by `pd.to_datetime` on its ISO `YYYY-MM-DD` fragment;
  `pd.to_datetime` on a numeric value interprets it as nanoseconds since the
  epoch and succeeds, while `pd.to_numeric` on a `datetime64` raises (hence
  parses as failure here).
-/

/-- A cell value.  `num` and `str` occur in raw fetched records; `date` only
arises from the date-coercion step and stores nanoseconds since the epoch,
mirroring pandas `datetime64[ns]`. -/
inductive Value where
  | num : Int → Value
  | str : String → Value
  | date : Int → Value
deriving DecidableEq, Repr

/-- One fetched record: an ordered mapping from column name to raw value,
as produced by `worksheet.get_all_records()`. -/
abbrev RecordRow := List (String × Value)

/-- A DataFrame, column-major: ordered columns, each a name with the list of
its values in row order. -/
abbrev DataFrame := List (String × List Value)

def isNumV : Value → Bool
  | .num _ => true
  | _ => false

def isStrV : Value → Bool
  | .str _ => true
  | _ => false

def isDateV : Value → Bool
  | .date _ => true
  | _ => false

/-- Column dtype as pandas reports it: `numeric` when every value is a
number, `datetime` when every value is a datetime, `object` otherwise. -/
inductive Dtype where
  | numeric
  | datetime
  | object
deriving DecidableEq, Repr

def colDtype (vs : List Value) : Dtype :=
  if vs.all isNumV then .numeric
  else if vs.all isDateV then .datetime
  else .object

/-- Digit value of an ASCII digit character. -/
def digitVal (c : Char) : Option Nat :=
  if '0' ≤ c && c ≤ '9' then some (c.toNat - '0'.toNat) else none

def digitsValAux : Nat → List Char → Option Nat
  | acc, [] => some acc
  | acc, c :: cs =>
    match digitVal c with
    | some d => digitsValAux (10 * acc + d) cs
    | none => none

/-- Integer numeral parser: the integer fragment of the numeral strings
accepted by `pd.to_numeric` (optional leading minus sign, then decimal
digits). -/
def parseIntStr : List Char → Option Int
  | [] => none
  | '-' :: rest =>
    match rest with
    | [] => none
    | _ => (digitsValAux 0 rest).map (fun n => -(n : Int))
  | cs => (digitsValAux 0 cs).map (fun n => (n : Int))

/-- `pd.to_numeric` on a single value: numbers pass through, numeral strings
parse, anything else fails.  (`pd.to_numeric` on a `datetime64` raises a
`TypeError`; this point is unreachable in the pipeline since numeric coercion
runs before date coercion.) -/
def toNumericV : Value → Option Value
  | .num n => some (.num n)
  | .str s => (parseIntStr s.data).map .num
  | .date _ => none

def numericParseable (v : Value) : Bool := (toNumericV v).isSome

/-- ASCII lowercase of a character. -/
def lowerChar (c : Char) : Char :=
  if 'A' ≤ c && c ≤ 'Z' then Char.ofNat (c.toNat + 32) else c

def leadsWith : List Char → List Char → Bool
  | [], _ => true
  | _ :: _, [] => false
  | p :: ps, c :: cs => p == c && leadsWith ps cs

/-- Substring test on character lists. -/
def containsSub (pat : List Char) : List Char → Bool
  | [] => leadsWith pat []
  | c :: rest => leadsWith pat (c :: rest) || containsSub pat rest

/-- The date-column name heuristic of `load_data`:
`'tanggal' in col.lower() or 'date' in col.lower()`. -/
def nameMatchesDate (name : String) : Bool :=
  let l := name.data.map lowerChar
  containsSub "tanggal".data l || containsSub "date".data l

/-- Days from the Unix epoch of a civil date (Gregorian, proleptic). -/
def daysFromCivil (y m d : Nat) : Int :=
  let y' : Int := (y : Int) - (if m ≤ 2 then 1 else 0)
  let era : Int := y'.fdiv 400
  let yoe : Int := y' - era * 400
  let mp : Int := if m ≥ 3 then (m : Int) - 3 else (m : Int) + 9
  let doy : Int := (153 * mp + 2).fdiv 5 + (d : Int) - 1
  let doe : Int := yoe * 365 + yoe.fdiv 4 - yoe.fdiv 100 + doy
  era * 146097 + doe - 719468

/-- ISO `YYYY-MM-DD` date-string parser: the fragment of `pd.to_datetime`'s
string parsing exercised by this application's data. -/
def parseDateChars (cs : List Char) : Option (Nat × Nat × Nat) :=
  match cs with
  | [y1, y2, y3, y4, s1, m1, m2, s2, d1, d2] =>
    if s1 = '-' && s2 = '-' then
      match digitVal y1, digitVal y2, digitVal y3, digitVal y4,
            digitVal m1, digitVal m2, digitVal d1, digitVal d2 with
      | some a, some b, some c, some e, some f, some g, some h, some i =>
        let y := 1000 * a + 100 * b + 10 * c + e
        let m := 10 * f + g
        let d := 10 * h + i
        if 1 ≤ m && m ≤ 12 && 1 ≤ d && d ≤ 31 then some (y, m, d) else none
      | _, _, _, _, _, _, _, _ => none
    else none
  | _ => none

def nsPerDay : Int := 86400000000000

/-- `pd.to_datetime` on a single value: a number is read as nanoseconds since
the epoch, a string must parse as a date, a datetime passes through. -/
def toDateV : Value → Option Value
  | .num n => some (.date n)
  | .str s =>
    (parseDateChars s.data).map (fun t => .date (daysFromCivil t.1 t.2.1 t.2.2 * nsPerDay))
  | .date n => some (.date n)

def dateParseable (v : Value) : Bool := (toDateV v).isSome

/-- All-or-nothing option-valued traversal: `some` of the mapped list when
every element maps to `some`, otherwise `none`. -/
def traverseOpt (f : α → Option β) : List α → Option (List β)
  | [] => some []
  | a :: as =>
    match f a, traverseOpt f as with
    | some b, some bs => some (b :: bs)
    | _, _ => none

/-- `df[col] = pd.to_numeric(df[col], errors='ignore')`, guarded by
`df[col].dtype == 'object'` (a raw column is object-dtyped exactly when it
contains at least one string). -/
def coerceNumericCol (vs : List Value) : List Value :=
  if vs.any isStrV then
    match traverseOpt toNumericV vs with
    | some vs' => vs'
    | none => vs
  else vs

/-- `df[col] = pd.to_datetime(df[col], errors='ignore')`, guarded by the
column-name heuristic. -/
def coerceDateCol (name : String) (vs : List Value) : List Value :=
  if nameMatchesDate name then
    match traverseOpt toDateV vs with
    | some vs' => vs'
    | none => vs
  else vs

/-- The per-column body of the `for col in df.columns` loop of `load_data`:
numeric coercion first, then date coercion. -/
def coerceCol (name : String) (vs : List Value) : List Value :=
  coerceDateCol name (coerceNumericCol vs)

/-- The whole type-coercion loop of `load_data`. -/
def coerceTypes (df : DataFrame) : DataFrame :=
  df.map (fun c => (c.1, coerceCol c.1 c.2))

def lookupVal (r : RecordRow) (k : String) : Value :=
  ((r.find? (fun p => p.1 == k)).map (·.2)).getD (.str "")

/-- `pd.DataFrame(records)`: columns in the key order of the first record,
each column holding that key's value from every record. -/
def toDataFrame (records : List RecordRow) : DataFrame :=
  match records with
  | [] => []
  | r :: _ => r.map (fun p => (p.1, records.map (fun rec => lookupVal rec p.1)))

def numCols (df : DataFrame) : Nat := df.length

def numRows (df : DataFrame) : Nat :=
  match df with
  | [] => 0
  | c :: _ => c.2.length

/-- `df.empty`: true when either axis has length zero. -/
def dfEmpty (df : DataFrame) : Bool :=
  numRows df = 0 || numCols df = 0

/-- The ways resolving and fetching the sheet can fail: connection failure in
`connect_to_gsheet` (the `if not client` branch) or an exception out of
`open_by_url` / `worksheet` / `get_all_records` (the `except` branch); the
code collapses all of them into the same caught-and-report path. -/
inductive FetchFailure where
  | connectionFailure
  | invalidUrl
  | sheetNotFound
  | permissionDenied
  | networkFailure
deriving DecidableEq, Repr

/-- `load_data`, with the remote interaction abstracted as its outcome: on
any failure the exception is caught and `None` is returned; on success the
records become a DataFrame and the type-coercion loop runs. -/
def load_data (fetch : Except FetchFailure (List RecordRow)) : Option DataFrame :=
  match fetch with
  | .error _ => none
  | .ok records => some (coerceTypes (toDataFrame records))

def describeFailure : FetchFailure → String
  | .connectionFailure => "connection failure"
  | .invalidUrl => "invalid URL"
  | .sheetNotFound => "sheet not found"
  | .permissionDenied => "permission denied"
  | .networkFailure => "network failure"

/-- The user-visible message emitted at the point of failure
(`st.error(f"Error loading data: {e}")`, or the connection error message). -/
def loadErrorMsg (fetch : Except FetchFailure (List RecordRow)) : Option String :=
  match fetch with
  | .error e => some ("Error loading data: " ++ describeFailure e)
  | .ok _ => none

/-- What the main script renders from the loader's result:
table when non-empty, the empty-sheet warning when empty, the error message
when the loader returned `None`. -/
inductive UIState where
  | errorState (msg : String)
  | noData
  | table (df : DataFrame)
deriving DecidableEq, Repr

def renderResult : Option DataFrame → UIState
  | none => .errorState "Gagal memuat data. Cek URL dan permissions!"
  | some df => if dfEmpty df then .noData else .table df

-- scratch tests

/-- The two-record scenario sheet from the specification. -/
def scenarioRecords : List RecordRow :=
  [[("Tanggal", Value.str "2024-01-01"), ("Penjualan", Value.num 5000000),
    ("Produk", Value.str "Laptop")],
   [("Tanggal", Value.str "2024-01-02"), ("Penjualan", Value.num 7500000),
    ("Produk", Value.str "Mouse")]]

/-- The DataFrame `load_data` produces for the scenario sheet (dates are
nanoseconds since the epoch for 2024-01-01 and 2024-01-02). -/
def scenarioDf : DataFrame :=
  [("Tanggal", [Value.date 1704067200000000000, Value.date 1704153600000000000]),
   ("Penjualan", [Value.num 5000000, Value.num 7500000]),
   ("Produk", [Value.str "Laptop", Value.str "Mouse"])]

def getCol (df : DataFrame) (name : String) : List Value :=
  ((df.find? (fun c => c.1 == name)).map (fun c => c.2)).getD []

/-! ### The memoized cache of `load_data` (C4, C10)

`@st.cache_data(ttl=300)` memoizes the function's result keyed by its
arguments `(sheet_url, sheet_name)` with a 300-second time-to-live;
`st.cache_data.clear()` empties the whole store. -/

abbrev CacheKey := String × String

structure CacheState where
  entries : List (CacheKey × (Nat × Option DataFrame))

def lookupEntry (st : CacheState) (k : CacheKey) : Option (Nat × Option DataFrame) :=
  (st.entries.find? (fun e => e.1 = k)).map (fun e => e.2)

def insertEntry (st : CacheState) (k : CacheKey) (now : Nat) (v : Option DataFrame) :
    CacheState :=
  ⟨(k, (now, v)) :: st.entries.filter (fun e => !(e.1 = k : Bool))⟩

/-- The memoizing wrapper around `load_data`: a hit younger than the
300-second time-to-live is answered from the store without running the body;
otherwise the body runs and its result is memoized at the current time. -/
def cachedLoadData (fetch : Except FetchFailure (List RecordRow))
    (url sheetName : String) (now : Nat) (st : CacheState) :
    Option DataFrame × CacheState :=
  match lookupEntry st (url, sheetName) with
  | some (ts, v) =>
    if now < ts + 300 then (v, st)
    else (load_data fetch, insertEntry st (url, sheetName) now (load_data fetch))
  | none => (load_data fetch, insertEntry st (url, sheetName) now (load_data fetch))

inductive RerunSignal where
  | rerunTriggered
  | noRerun
deriving DecidableEq, Repr

/-- The manual-refresh button handler:
`st.cache_data.clear()` (which empties the entire memoized store, for every
key) followed by `st.rerun()`. -/
def manualRefresh (_st : CacheState) : CacheState × RerunSignal :=
  ({ entries := [] }, .rerunTriggered)

/-! ### The auto-refresh countdown loop (C8) -/

inductive SessionEvent where
  | displayCountdown (mins secs : Nat)
  | sleepOneSecond
  | clearCache
  | rerunApp
deriving DecidableEq, BEq, Repr

/-- `range(300, 0, -1)`: the seconds values the countdown iterates over. -/
def countdownSeconds : List Nat := (List.range 300).map (fun i => 300 - i)

/-- One iteration of the countdown: display `mins:secs` (computed by
`divmod(seconds, 60)`) and `time.sleep(1)`. -/
def countdownIteration (s : Nat) : List SessionEvent :=
  [.displayCountdown (s / 60) (s % 60), .sleepOneSecond]

def countdownLoopTrace : List SessionEvent :=
  (countdownSeconds.map countdownIteration).flatten

/-- The whole auto-refresh block: the countdown loop, then
`st.cache_data.clear()` and `st.rerun()`.  The trace is a fixed, total
list: the loop admits no early exit. -/
def autoRefreshTrace : List SessionEvent :=
  countdownLoopTrace ++ [.clearCache, .rerunApp]

def isSleepEv : SessionEvent → Bool
  | .sleepOneSecond => true
  | _ => false

/-! ### CSV export (C5)

`df.to_csv(index=False)`: a header line of the column names followed by one
line per record, comma-separated, each line terminated by a newline, fields
quoted minimally (a field is wrapped in double quotes, with embedded quotes
doubled, exactly when it contains a delimiter, a quote, or a line break) —
the csv.QUOTE_MINIMAL convention pandas delegates to.  Fields are handled
as character lists. -/

def specialChar (c : Char) : Bool :=
  c = ',' || c = '"' || c = '\x0a' || c = '\x0d'

def needsQuoting (f : List Char) : Bool := f.any specialChar

/-- Double every embedded quote character. -/
def dquoteChars : List Char → List Char
  | [] => []
  | c :: cs => if c = '"' then '"' :: '"' :: dquoteChars cs else c :: dquoteChars cs

def escField (f : List Char) : List Char :=
  if needsQuoting f then '"' :: (dquoteChars f ++ ['"']) else f

def writeRow : List (List Char) → List Char
  | [] => []
  | [f] => escField f
  | f :: g :: fs => escField f ++ ',' :: writeRow (g :: fs)

def writeCsv (rows : List (List (List Char))) : List Char :=
  (rows.map (fun r => writeRow r ++ ['\x0a'])).flatten

/-- Parsing mode of the CSV reader: in a plain field, inside a quoted
field, or just past a quote character while inside a quoted field (which
either doubles into a literal quote or closes the field). -/
inductive CsvMode where
  | plain
  | quoted
  | afterQuote
deriving DecidableEq, Repr

/-- A standard CSV reader, as a character-level machine over the state
(remaining input, mode, current field reversed, current row's finished
fields reversed, finished rows reversed). -/
def runCsv : List Char → CsvMode → List Char → List (List Char) → List (List (List Char)) →
    List (List (List Char))
  | [], mode, fld, flds, rows =>
    if mode = CsvMode.plain ∧ fld = [] ∧ flds = [] then rows.reverse
    else ((fld.reverse :: flds).reverse :: rows).reverse
  | c :: cs, .quoted, fld, flds, rows =>
    if c = '"' then runCsv cs .afterQuote fld flds rows
    else runCsv cs .quoted (c :: fld) flds rows
  | c :: cs, .afterQuote, fld, flds, rows =>
    if c = '"' then runCsv cs .quoted ('"' :: fld) flds rows
    else if c = ',' then runCsv cs .plain [] (fld.reverse :: flds) rows
    else if c = '\x0a' then runCsv cs .plain [] [] ((fld.reverse :: flds).reverse :: rows)
    else runCsv cs .plain (c :: fld) flds rows
  | c :: cs, .plain, fld, flds, rows =>
    if c = '"' then runCsv cs .quoted fld flds rows
    else if c = ',' then runCsv cs .plain [] (fld.reverse :: flds) rows
    else if c = '\x0a' then runCsv cs .plain [] [] ((fld.reverse :: flds).reverse :: rows)
    else runCsv cs .plain (c :: fld) flds rows

def parseCsv (input : List Char) : List (List (List Char)) :=
  runCsv input .plain [] [] []

/-- Civil date (year, month, day) of a count of days since the Unix epoch
(Gregorian, proleptic). -/
def civilFromDays (z0 : Int) : Int × Nat × Nat :=
  let z := z0 + 719468
  let era := z.fdiv 146097
  let doe := (z - era * 146097).toNat
  let yoe := (doe - doe / 1460 + doe / 36524 - doe / 146096) / 365
  let y := (yoe : Int) + era * 400
  let doy := doe - (365 * yoe + yoe / 4 - yoe / 100)
  let mp := (5 * doy + 2) / 153
  let d := doy - (153 * mp + 2) / 5 + 1
  let m := if mp < 10 then mp + 3 else mp - 9
  (y + (if m ≤ 2 then 1 else 0), m, d)

def pad2 (n : Nat) : List Char :=
  if n < 10 then '0' :: (toString n).data else (toString n).data

/-- How pandas `to_csv` prints a `datetime64[ns]` cell: the ISO date, with a
`HH:MM:SS` time part only when the timestamp is not at midnight (sub-second
digits are not modelled; the application's dates are day-resolution). -/
def renderTimestamp (ns : Int) : List Char :=
  let days := ns.fdiv nsPerDay
  let rem := (ns - days * nsPerDay).toNat
  let c := civilFromDays days
  let secs := rem / 1000000000
  let datePart := (toString c.1).data ++ '-' :: (pad2 c.2.1 ++ '-' :: pad2 c.2.2)
  if rem = 0 then datePart
  else datePart ++ ' ' :: (pad2 (secs / 3600) ++ ':' :: (pad2 (secs % 3600 / 60) ++ ':' :: pad2 (secs % 60)))

/-- The string form a cell takes in the CSV export (type widening to
string). -/
def renderCell : Value → List Char
  | .num n => (toString n).data
  | .str s => s.data
  | .date ns => renderTimestamp ns

def dfHeader (df : DataFrame) : List (List Char) := df.map (fun c => c.1.data)

/-- The records of the DataFrame, row-major (the DataFrame is rectangular
by construction, so the default value is never used). -/
def dfRows (df : DataFrame) : List (List Value) :=
  (List.range (numRows df)).map (fun i => df.map (fun c => c.2.getD i (Value.str "")))

def dfStringRows (df : DataFrame) : List (List (List Char)) :=
  (dfRows df).map (fun r => r.map renderCell)

/-- `df.to_csv(index=False)`: header line of the column names, then one
line per record, all newline-terminated. -/
def to_csv (df : DataFrame) : List Char :=
  writeCsv (dfHeader df :: dfStringRows df)

/-! ### Basic lemmas about the all-or-nothing traversal -/

theorem traverseOpt_ne_none {α β : Type} (f : α → Option β) (l : List α)
    (h : ∀ a ∈ l, (f a).isSome = true) : ∃ ws, traverseOpt f l = some ws := by
  induction l with
  | nil => exact ⟨[], rfl⟩
  | cons a as ih =>
    obtain ⟨b, hb⟩ := Option.isSome_iff_exists.mp (h a (List.mem_cons_self a as))
    obtain ⟨ws, hws⟩ := ih (fun x hx => h x (List.mem_cons_of_mem a hx))
    exact ⟨b :: ws, by simp [traverseOpt, hb, hws]⟩

theorem traverseOpt_length {α β : Type} (f : α → Option β) :
    ∀ l ws, traverseOpt f l = some ws → ws.length = l.length := by
  intro l
  induction l with
  | nil => intro ws h; simp [traverseOpt] at h; simp [← h]
  | cons a as ih =>
    intro ws h
    cases hfa : f a <;> cases hrest : traverseOpt f as <;>
      simp [traverseOpt, hfa, hrest] at h
    subst h
    simp [ih _ hrest]

theorem traverseOpt_mem {α β : Type} (f : α → Option β) :
    ∀ l ws, traverseOpt f l = some ws → ∀ b ∈ ws, ∃ a ∈ l, f a = some b := by
  intro l
  induction l with
  | nil =>
    intro ws h b hb
    simp [traverseOpt] at h
    subst h
    simp at hb
  | cons a as ih =>
    intro ws h b hb
    cases hfa : f a <;> cases hrest : traverseOpt f as <;>
      simp [traverseOpt, hfa, hrest] at h
    subst h
    rcases List.mem_cons.mp hb with hb | hb
    · exact ⟨a, List.mem_cons_self a as, by rw [hfa, hb]⟩
    · obtain ⟨x, hx, hfx⟩ := ih _ hrest b hb
      exact ⟨x, List.mem_cons_of_mem a hx, hfx⟩

theorem traverseOpt_eq_none {α β : Type} (f : α → Option β) (l : List α) (a : α)
    (ha : a ∈ l) (hfa : f a = none) : traverseOpt f l = none := by
  induction l with
  | nil => simp at ha
  | cons x xs ih =>
    rcases List.mem_cons.mp ha with h | h
    · subst h
      cases traverseOpt f xs <;> simp [traverseOpt, hfa]
    · cases hfx : f x <;> simp [traverseOpt, hfx, ih h]

theorem toNumericV_isNum {v w : Value} (h : toNumericV v = some w) : isNumV w = true := by
  cases v with
  | num n => simp [toNumericV] at h; simp [← h, isNumV]
  | str s =>
    simp [toNumericV, Option.map_eq_some'] at h
    obtain ⟨n, _, rfl⟩ := h
    rfl
  | date n => simp [toNumericV] at h

theorem toDateV_isDate {v w : Value} (h : toDateV v = some w) : isDateV w = true := by
  cases v with
  | num n => simp [toDateV] at h; simp [← h, isDateV]
  | str s =>
    simp [toDateV, Option.map_eq_some'] at h
    obtain ⟨a, b, c, _, rfl⟩ := h
    rfl
  | date n => simp [toDateV] at h; simp [← h, isDateV]

theorem coerceNumericCol_length (vs : List Value) :
    (coerceNumericCol vs).length = vs.length := by
  unfold coerceNumericCol
  cases hstr : vs.any isStrV with
  | false => simp
  | true =>
    simp only [if_true]
    cases hts : traverseOpt toNumericV vs with
    | none => simp
    | some ws => simp [traverseOpt_length _ _ _ hts]

theorem coerceDateCol_length (name : String) (vs : List Value) :
    (coerceDateCol name vs).length = vs.length := by
  unfold coerceDateCol
  cases hn : nameMatchesDate name with
  | false => simp
  | true =>
    simp only [if_true]
    cases hts : traverseOpt toDateV vs with
    | none => simp
    | some ws => simp [traverseOpt_length _ _ _ hts]

theorem coerceCol_length (name : String) (vs : List Value) :
    (coerceCol name vs).length = vs.length := by
  rw [coerceCol, coerceDateCol_length, coerceNumericCol_length]

theorem coerceNumericCol_eq_self_of_not_all (vs : List Value)
    (h : vs.all numericParseable = false) : coerceNumericCol vs = vs := by
  have ⟨a, ha, hpa⟩ : ∃ a ∈ vs, ¬numericParseable a = true := by
    simpa using List.all_eq_false.mp h
  have hfa : toNumericV a = none := by
    simpa [numericParseable, Option.not_isSome_iff_eq_none] using hpa
  unfold coerceNumericCol
  rw [traverseOpt_eq_none toNumericV vs a ha hfa]
  cases vs.any isStrV <;> simp

theorem coerceDateCol_eq_self_of_not_all (name : String) (vs : List Value)
    (h : vs.all dateParseable = false) : coerceDateCol name vs = vs := by
  have ⟨a, ha, hpa⟩ : ∃ a ∈ vs, ¬dateParseable a = true := by
    simpa using List.all_eq_false.mp h
  have hfa : toDateV a = none := by
    simpa [dateParseable, Option.not_isSome_iff_eq_none] using hpa
  unfold coerceDateCol
  rw [traverseOpt_eq_none toDateV vs a ha hfa]
  cases nameMatchesDate name <;> simp

theorem coerceNumericCol_dateParseable (vs : List Value)
    (h : vs.all dateParseable = true) :
    (coerceNumericCol vs).all dateParseable = true := by
  unfold coerceNumericCol
  cases hstr : vs.any isStrV with
  | false => simpa using h
  | true =>
    simp only [if_true]
    cases hts : traverseOpt toNumericV vs with
    | none => simpa using h
    | some ws =>
      simp only [List.all_eq_true]
      intro b hb
      obtain ⟨a, _, hfa⟩ := traverseOpt_mem _ _ _ hts b hb
      have hnb : isNumV b = true := toNumericV_isNum hfa
      cases b with
      | num n => simp [dateParseable, toDateV]
      | str s => simp [isNumV] at hnb
      | date n => simp [dateParseable, toDateV]

/-! ### Claims about the type-coercion step (C1, C2, C7, C9) -/

/-- C1, counterexample: the loaded table with one column named "date" holding
the single numeric-parseable value "1" does not get a numeric dtype from the
type-coercion step — numeric coercion turns it into the number 1, but the
date coercion then reads that number as an epoch timestamp, so the column
ends up date-typed, refuting the claim that every all-numeric-parseable
column is numeric-dtyped after coercion. -/
theorem claim_C1_counterexample :
    ([Value.str "1"].all numericParseable = true) ∧
    load_data (.ok [[("date", Value.str "1")]]) = some [("date", [Value.date 1])] ∧
    colDtype [Value.date 1] ≠ Dtype.numeric := by decide

/-- C1, amended: every nonempty column whose name does not match the date
heuristic and whose every value is numeric-parseable has a numeric dtype
after the per-column coercion step, and every column containing at least one
non-numeric value is left completely unchanged by the numeric-coercion
attempt (all-or-nothing per column). -/
theorem claim_C1_amended (name : String) (vs : List Value) :
    (vs ≠ [] → nameMatchesDate name = false → vs.all numericParseable = true →
      colDtype (coerceCol name vs) = Dtype.numeric) ∧
    (vs.all numericParseable = false → coerceNumericCol vs = vs) := by
  constructor
  · intro hne hname hall
    have hsub : coerceCol name vs = coerceNumericCol vs := by
      simp [coerceCol, coerceDateCol, hname]
    rw [hsub]
    cases hstr : vs.any isStrV with
    | true =>
      have hParse : ∀ v ∈ vs, (toNumericV v).isSome = true := by
        intro v hv
        simpa [numericParseable] using List.all_eq_true.mp hall v hv
      obtain ⟨ws, hws⟩ := traverseOpt_ne_none _ _ hParse
      have heq : coerceNumericCol vs = ws := by
        unfold coerceNumericCol
        rw [hstr, hws]
        simp
      rw [heq]
      have hnum : ws.all isNumV = true := by
        rw [List.all_eq_true]
        intro b hb
        obtain ⟨a, _, hfa⟩ := traverseOpt_mem _ _ _ hws b hb
        exact toNumericV_isNum hfa
      simp [colDtype, hnum]
    | false =>
      have heq : coerceNumericCol vs = vs := by
        unfold coerceNumericCol
        rw [hstr]
        simp
      rw [heq]
      have hnum : vs.all isNumV = true := by
        rw [List.all_eq_true]
        intro v hv
        have hp : numericParseable v = true := List.all_eq_true.mp hall v hv
        have hs : ¬isStrV v = true := List.any_eq_false.mp hstr v hv
        cases v with
        | num n => rfl
        | str s => exact absurd rfl hs
        | date n => simp [numericParseable, toNumericV] at hp
      simp [colDtype, hnum]
  · exact coerceNumericCol_eq_self_of_not_all vs

/-- Witness for C1 (amended): both parts applied at concrete columns. -/
theorem claim_C1_witness :
    colDtype (coerceCol "Penjualan" [Value.str "12", Value.num 3]) = Dtype.numeric ∧
    coerceNumericCol [Value.str "abc", Value.num 3] = [Value.str "abc", Value.num 3] :=
  ⟨(claim_C1_amended "Penjualan" [Value.str "12", Value.num 3]).1
      (by decide) (by decide) (by decide),
   (claim_C1_amended "Penjualan" [Value.str "abc", Value.num 3]).2 (by decide)⟩

/-- C2: a nonempty column whose name matches the date heuristic and whose
values are uniformly date-parseable is date-typed after the per-column
coercion step; a column whose name does not match is untouched by the
date-coercion attempt, and so is a column with a value that fails to parse
as a date. -/
theorem claim_C2 (name : String) (vs : List Value) :
    (vs ≠ [] → nameMatchesDate name = true → vs.all dateParseable = true →
      colDtype (coerceCol name vs) = Dtype.datetime) ∧
    (nameMatchesDate name = false → ∀ ws, coerceDateCol name ws = ws) ∧
    (vs.all dateParseable = false → coerceDateCol name vs = vs) := by
  refine ⟨?_, ?_, ?_⟩
  · intro hne hname hall
    have hall' := coerceNumericCol_dateParseable vs hall
    have hlen' : (coerceNumericCol vs).length = vs.length := coerceNumericCol_length vs
    rw [coerceCol]
    have hParse : ∀ v ∈ coerceNumericCol vs, (toDateV v).isSome = true := by
      intro v hv
      simpa [dateParseable] using List.all_eq_true.mp hall' v hv
    obtain ⟨ws, hws⟩ := traverseOpt_ne_none _ _ hParse
    have heq : coerceDateCol name (coerceNumericCol vs) = ws := by
      unfold coerceDateCol
      rw [hname, hws]
      simp
    rw [heq]
    have hdate : ws.all isDateV = true := by
      rw [List.all_eq_true]
      intro b hb
      obtain ⟨a, _, hfa⟩ := traverseOpt_mem _ _ _ hws b hb
      exact toDateV_isDate hfa
    have hlen : ws.length = vs.length := by
      rw [traverseOpt_length _ _ _ hws, hlen']
    obtain ⟨w, ws2, rfl⟩ : ∃ w ws2, ws = w :: ws2 := by
      cases ws with
      | nil =>
        exfalso
        exact hne (List.length_eq_zero.mp hlen.symm)
      | cons w ws2 => exact ⟨w, ws2, rfl⟩
    have hnotnum : ((w :: ws2).all isNumV) = false := by
      have hw : isDateV w = true := List.all_eq_true.mp hdate w (List.mem_cons_self _ _)
      cases w with
      | num n => simp [isDateV] at hw
      | str s => simp [isDateV] at hw
      | date n => simp [isNumV]
    simp [colDtype, hnotnum, hdate]
  · intro hname ws
    simp [coerceDateCol, hname]
  · exact coerceDateCol_eq_self_of_not_all name vs

/-- Witness for C2: all three parts applied at concrete columns. -/
theorem claim_C2_witness :
    colDtype (coerceCol "Tanggal" [Value.str "2024-01-01"]) = Dtype.datetime ∧
    coerceDateCol "Produk" [Value.str "x"] = [Value.str "x"] ∧
    coerceDateCol "Tanggal" [Value.str "abc"] = [Value.str "abc"] :=
  ⟨(claim_C2 "Tanggal" [Value.str "2024-01-01"]).1 (by decide) (by decide) (by decide),
   (claim_C2 "Produk" [Value.str "2024-01-01"]).2.1 (by decide) [Value.str "x"],
   (claim_C2 "Tanggal" [Value.str "abc"]).2.2 (by decide)⟩

/-- C9: the type-coercion loop changes neither the list of column names,
nor any column's length, nor the row count, nor the column count of the
DataFrame — only cell representations inside existing columns. -/
theorem claim_C9_frame (df : DataFrame) :
    (coerceTypes df).map Prod.fst = df.map Prod.fst ∧
    (coerceTypes df).map (fun c => c.2.length) = df.map (fun c => c.2.length) ∧
    numRows (coerceTypes df) = numRows df ∧
    numCols (coerceTypes df) = numCols df := by
  refine ⟨?_, ?_, ?_, ?_⟩
  · rw [coerceTypes, List.map_map]
    rfl
  · induction df with
    | nil => rfl
    | cons c cs ih =>
      simp only [coerceTypes, List.map_cons, List.cons.injEq] at ih ⊢
      exact ⟨coerceCol_length c.1 c.2, ih⟩
  · cases df with
    | nil => rfl
    | cons c cs => simp [coerceTypes, numRows, coerceCol_length]
  · simp [coerceTypes, numCols]

/-- C7: on the scenario sheet the loader returns a 2-row, 3-column dataset
whose "Tanggal" column is date-typed and whose "Penjualan" column is
numeric-typed. -/
theorem claim_C7_scenario :
    load_data (.ok scenarioRecords) = some scenarioDf ∧
    numRows scenarioDf = 2 ∧ numCols scenarioDf = 3 ∧
    colDtype (getCol scenarioDf "Tanggal") = Dtype.datetime ∧
    colDtype (getCol scenarioDf "Penjualan") = Dtype.numeric := by decide

/-! ### Error handling (C3, C6) -/

/-- C3: every failure of locator resolution, sheet resolution, or the fetch
is caught inside `load_data` (which surfaces a user-visible message and
returns `None` instead of propagating), and the caller then renders the
error message and no table. -/
theorem claim_C3_fetch_error (e : FetchFailure) (df : DataFrame) :
    load_data (.error e) = none ∧
    (loadErrorMsg (.error e)).isSome = true ∧
    renderResult (load_data (.error e)) =
      UIState.errorState "Gagal memuat data. Cek URL dan permissions!" ∧
    renderResult (load_data (.error e)) ≠ UIState.table df := by
  refine ⟨rfl, rfl, rfl, ?_⟩
  simp [load_data, renderResult]

/-- C6: a successfully resolved sheet with zero records makes the loader
return an empty dataset (not an error), and the caller shows the
empty-sheet warning, not the error state. -/
theorem claim_C6_empty_sheet :
    load_data (.ok []) = some [] ∧
    dfEmpty [] = true ∧
    renderResult (load_data (.ok [])) = UIState.noData ∧
    (∀ msg, renderResult (load_data (.ok [])) ≠ UIState.errorState msg) := by
  refine ⟨rfl, rfl, rfl, ?_⟩
  intro msg
  simp [load_data, renderResult, toDataFrame, coerceTypes, dfEmpty, numRows, numCols]

theorem lookupEntry_insert (st : CacheState) (k : CacheKey) (now : Nat)
    (v : Option DataFrame) : lookupEntry (insertEntry st k now v) k = some (now, v) := by
  simp [lookupEntry, insertEntry, List.find?_cons_of_pos]

/-- C4: with identical underlying data, a second call within the 5-minute
freshness window of the first is answered from the memoized entry:
it returns the identical dataset and leaves the store unchanged. -/
theorem claim_C4_cache (fetch : Except FetchFailure (List RecordRow))
    (url sheetName : String) (t1 t2 : Nat) (st : CacheState)
    (hmiss : lookupEntry st (url, sheetName) = none)
    (hwin : t2 < t1 + 300) :
    (cachedLoadData fetch url sheetName t2 (cachedLoadData fetch url sheetName t1 st).2).1
      = (cachedLoadData fetch url sheetName t1 st).1 ∧
    (cachedLoadData fetch url sheetName t2 (cachedLoadData fetch url sheetName t1 st).2).2
      = (cachedLoadData fetch url sheetName t1 st).2 := by
  have h1 : cachedLoadData fetch url sheetName t1 st =
      (load_data fetch, insertEntry st (url, sheetName) t1 (load_data fetch)) := by
    simp [cachedLoadData, hmiss]
  rw [h1]
  have h2 : lookupEntry (insertEntry st (url, sheetName) t1 (load_data fetch))
      (url, sheetName) = some (t1, load_data fetch) := lookupEntry_insert _ _ _ _
  constructor <;> simp [cachedLoadData, h2, hwin]

/-- Witness for C4: two calls on an initially empty store, 100 seconds
apart. -/
theorem claim_C4_witness :
    (cachedLoadData (.ok []) "u" "s1" 100 (cachedLoadData (.ok []) "u" "s1" 0 ⟨[]⟩).2).1
      = (cachedLoadData (.ok []) "u" "s1" 0 ⟨[]⟩).1 ∧
    (cachedLoadData (.ok []) "u" "s1" 100 (cachedLoadData (.ok []) "u" "s1" 0 ⟨[]⟩).2).2
      = (cachedLoadData (.ok []) "u" "s1" 0 ⟨[]⟩).2 :=
  claim_C4_cache (.ok []) "u" "s1" 0 100 ⟨[]⟩ rfl (by decide)

/-- C10: the manual refresh clears every memoized entry — lookup of any key
whatsoever misses afterwards, not only the currently entered
(locator, sheet-name) pair — and then triggers a full re-run. -/
theorem claim_C10_clear_all (st : CacheState) (k : CacheKey) :
    lookupEntry (manualRefresh st).1 k = none ∧
    (manualRefresh st).2 = RerunSignal.rerunTriggered :=
  ⟨rfl, rfl⟩

set_option maxRecDepth 10000 in
/-- C8: the countdown performs exactly 300 iterations — the k-th displays
the remaining time `300 - k` as minutes and seconds and sleeps one time
unit — and afterwards the session clears the cache and re-runs; the trace
is a fixed total list with no cancellation point. -/
theorem claim_C8_countdown :
    autoRefreshTrace.countP isSleepEv = 300 ∧
    countdownLoopTrace.length = 600 ∧
    autoRefreshTrace = countdownLoopTrace ++ [SessionEvent.clearCache, SessionEvent.rerunApp] ∧
    ((List.range 300).all (fun k =>
      countdownLoopTrace.getD (2 * k) SessionEvent.rerunApp
          == SessionEvent.displayCountdown ((300 - k) / 60) ((300 - k) % 60) &&
      countdownLoopTrace.getD (2 * k + 1) SessionEvent.rerunApp
          == SessionEvent.sleepOneSecond) = true) := by decide

theorem runCsv_unquoted (f : List Char)
    (h : f.all (fun c => !specialChar c) = true) :
    ∀ rest fld flds rows, runCsv (f ++ rest) .plain fld flds rows
      = runCsv rest .plain (f.reverse ++ fld) flds rows := by
  induction f with
  | nil => intro rest fld flds rows; simp
  | cons c cs ih =>
    intro rest fld flds rows
    rw [List.all_cons] at h
    obtain ⟨hc, hcs⟩ := Bool.and_eq_true_iff.mp h
    have hc' : specialChar c = false := by simpa using hc
    have h1 : ¬c = '"' := by intro e; subst e; simp [specialChar] at hc'
    have h2 : ¬c = ',' := by intro e; subst e; simp [specialChar] at hc'
    have h3 : ¬c = '\x0a' := by intro e; subst e; simp [specialChar] at hc'
    rw [List.cons_append]
    simp only [runCsv, h1, h2, h3, if_false]
    rw [ih hcs rest (c :: fld) flds rows]
    simp

theorem runCsv_quoted (f : List Char) :
    ∀ rest fld flds rows, runCsv (dquoteChars f ++ '"' :: rest) .quoted fld flds rows
      = runCsv rest .afterQuote (f.reverse ++ fld) flds rows := by
  induction f with
  | nil =>
    intro rest fld flds rows
    simp [dquoteChars, runCsv]
  | cons c cs ih =>
    intro rest fld flds rows
    by_cases hc : c = '"'
    · subst hc
      rw [dquoteChars, if_pos rfl, List.cons_append, List.cons_append]
      simp only [runCsv, if_pos rfl]
      rw [ih rest ('"' :: fld) flds rows]
      simp
    · rw [dquoteChars, if_neg hc, List.cons_append]
      simp only [runCsv, hc, if_false]
      rw [ih rest (c :: fld) flds rows]
      simp

theorem runCsv_field_comma (f : List Char) (rs : List Char)
    (flds : List (List Char)) (rows : List (List (List Char))) :
    runCsv (escField f ++ ',' :: rs) .plain [] flds rows
      = runCsv rs .plain [] (f :: flds) rows := by
  cases hq : needsQuoting f with
  | false =>
    have hall : f.all (fun c => !specialChar c) = true := by
      rw [List.all_eq_true]
      intro c hc
      have := List.any_eq_false.mp hq c hc
      simpa using this
    rw [escField, hq, if_neg (by simp)]
    rw [runCsv_unquoted f hall (',' :: rs) [] flds rows]
    simp [runCsv]
  | true =>
    rw [escField, hq, if_pos rfl, List.cons_append, List.append_assoc,
      List.singleton_append]
    simp only [runCsv, if_pos rfl]
    rw [runCsv_quoted f (',' :: rs) [] flds rows]
    simp [runCsv]

theorem runCsv_field_newline (f : List Char) (rs : List Char)
    (flds : List (List Char)) (rows : List (List (List Char))) :
    runCsv (escField f ++ '\x0a' :: rs) .plain [] flds rows
      = runCsv rs .plain [] [] ((f :: flds).reverse :: rows) := by
  cases hq : needsQuoting f with
  | false =>
    have hall : f.all (fun c => !specialChar c) = true := by
      rw [List.all_eq_true]
      intro c hc
      have := List.any_eq_false.mp hq c hc
      simpa using this
    rw [escField, hq, if_neg (by simp)]
    rw [runCsv_unquoted f hall ('\x0a' :: rs) [] flds rows]
    simp [runCsv]
  | true =>
    rw [escField, hq, if_pos rfl, List.cons_append, List.append_assoc,
      List.singleton_append]
    simp only [runCsv, if_pos rfl]
    rw [runCsv_quoted f ('\x0a' :: rs) [] flds rows]
    simp [runCsv]

theorem runCsv_writeRow (fs : List (List Char)) (hne : fs ≠ []) :
    ∀ rest flds rows, runCsv (writeRow fs ++ '\x0a' :: rest) .plain [] flds rows
      = runCsv rest .plain [] [] ((flds.reverse ++ fs) :: rows) := by
  induction fs with
  | nil => exact absurd rfl hne
  | cons f fs ih =>
    intro rest flds rows
    cases fs with
    | nil =>
      simp only [writeRow]
      rw [runCsv_field_newline f rest flds rows]
      simp
    | cons g gs =>
      simp only [writeRow]
      rw [List.append_assoc, List.cons_append]
      rw [runCsv_field_comma f (writeRow (g :: gs) ++ '\x0a' :: rest) flds rows]
      rw [ih (by simp) rest (f :: flds) rows]
      simp

theorem runCsv_writeCsv (rs : List (List (List Char))) (hne : ∀ r ∈ rs, r ≠ []) :
    ∀ acc, runCsv (writeCsv rs) .plain [] [] acc = acc.reverse ++ rs := by
  induction rs with
  | nil => intro acc; simp [writeCsv, runCsv]
  | cons r rs ih =>
    intro acc
    have hcsv : writeCsv (r :: rs) = writeRow r ++ '\x0a' :: writeCsv rs := by
      simp [writeCsv, List.flatten_cons, List.append_assoc]
    rw [hcsv, runCsv_writeRow r (hne r (List.mem_cons_self r rs)) (writeCsv rs) [] acc]
    simp only [List.reverse_nil, List.nil_append]
    rw [ih (fun x hx => hne x (List.mem_cons_of_mem r hx)) (r :: acc)]
    simp

/-- Parsing inverts writing, for rows that all have at least one field. -/
theorem parseCsv_writeCsv (rs : List (List (List Char))) (hne : ∀ r ∈ rs, r ≠ []) :
    parseCsv (writeCsv rs) = rs := by
  rw [parseCsv, runCsv_writeCsv rs hne []]
  simp

/-- C5: the export is comma-separated text whose header row is exactly the
column names and which has one row per record with untransformed
(string-widened) cell values: re-parsing the exported text recovers the
header and precisely the string image of every record, row by row and
column by column. -/
theorem claim_C5_roundtrip (df : DataFrame) (hcols : 1 ≤ numCols df) :
    parseCsv (to_csv df) = dfHeader df :: dfStringRows df ∧
    dfHeader df = df.map (fun c => c.1.data) ∧
    (dfStringRows df).length = numRows df ∧
    (∀ r ∈ dfStringRows df, r.length = numCols df) := by
  have hne : ∀ r ∈ (dfHeader df :: dfStringRows df), r ≠ [] := by
    intro r hr
    rcases List.mem_cons.mp hr with rfl | hr
    · intro e
      have hl : (dfHeader df).length = 0 := by rw [e]; rfl
      rw [dfHeader, List.length_map] at hl
      rw [numCols] at hcols
      omega
    · obtain ⟨vr, hvr, rfl⟩ := List.mem_map.mp hr
      obtain ⟨i, _, rfl⟩ := List.mem_map.mp hvr
      intro e
      have hl : ((df.map (fun c => c.2.getD i (Value.str ""))).map renderCell).length = 0 := by
        rw [e]; rfl
      rw [List.length_map, List.length_map] at hl
      rw [numCols] at hcols
      omega
  refine ⟨parseCsv_writeCsv _ hne, rfl, ?_, ?_⟩
  · simp [dfStringRows, dfRows]
  · intro r hr
    obtain ⟨vr, hvr, rfl⟩ := List.mem_map.mp hr
    obtain ⟨i, _, rfl⟩ := List.mem_map.mp hvr
    simp [numCols]

/-- Witness for C5: a concrete two-column dataset whose first cell contains
a comma (so the export must quote it), round-tripped exactly. -/
theorem claim_C5_witness :
    parseCsv (to_csv [("a", [Value.str "x,y"]), ("b", [Value.str "z"])])
      = [["a".data, "b".data], ["x,y".data, "z".data]] ∧
    (dfStringRows [("a", [Value.str "x,y"]), ("b", [Value.str "z"])]).length
      = numRows [("a", [Value.str "x,y"]), ("b", [Value.str "z"])] := by
  have h := claim_C5_roundtrip [("a", [Value.str "x,y"]), ("b", [Value.str "z"])]
    (by decide)
  exact ⟨h.1.trans (by decide), h.2.2.1⟩
